import Mathlib

/-!
Verification of the market-making decision engine of
`src/python/juliaos_backtesting/market_making_strategy.py`
(`RLMarketMakingStrategy` and `AdaptiveRLMarketMakingStrategy`).

The per-bar method `next` (together with `_execute_orders`) is embedded as a
pure function over exact rationals.  Python/NumPy floats that can be NaN
(the ATR indicator during warm-up) are modelled by `PyFloat`; comparisons
against NaN are false, exactly as in Python, which is what drives the
`max`/`min` clamping behaviour on warm-up bars.  A division whose
denominator is zero produces a non-finite float in NumPy; the embedding
models that outcome as `PyFloat.nan`, and the whole step returns `none`
when the inventory-ratio division has a zero denominator (the one place
where a non-finite value would poison the rest of the bar).
-/

namespace MarketMaking

/-- A Python/NumPy float that may be NaN (used for the ATR indicator, which
is NaN while its 14-bar rolling window has not filled). -/
inductive PyFloat where
  | num : ℚ → PyFloat
  | nan : PyFloat
deriving DecidableEq

/-- Python `<` on floats: any comparison involving NaN is false. -/
def PyFloat.flt : PyFloat → PyFloat → Bool
  | .num a, .num b => decide (a < b)
  | _, _ => false

/-- Python builtin `min(a, b)`: returns `b` only when `b < a`; with NaN as
either argument the comparison is false, so the first argument wins. -/
def pyMin (a b : PyFloat) : PyFloat := if PyFloat.flt b a then b else a

/-- Python builtin `max(a, b)`: returns `b` only when `a < b`. -/
def pyMax (a b : PyFloat) : PyFloat := if PyFloat.flt a b then b else a

/-- Float multiplication; NaN propagates. -/
def PyFloat.fmul : PyFloat → PyFloat → PyFloat
  | .num a, .num b => .num (a * b)
  | _, _ => .nan

/-- Float addition; NaN propagates. -/
def PyFloat.fadd : PyFloat → PyFloat → PyFloat
  | .num a, .num b => .num (a + b)
  | _, _ => .nan

/-- Division of a float by an exact rational; NaN propagates, and a zero
denominator yields a non-finite value, modelled as NaN. -/
def PyFloat.fdiv : PyFloat → ℚ → PyFloat
  | .num a, b => if b = 0 then .nan else .num (a / b)
  | .nan, _ => .nan

/-- Extract the rational value of a float known not to be NaN (junk 0 on NaN;
every use site is proved to be in the `num` case). -/
def PyFloat.toQ : PyFloat → ℚ
  | .num q => q
  | .nan => 0

/-- The strategy parameters of `RLMarketMakingStrategy` that the per-bar step
reads (class attributes in the source, immutable during one bar). -/
structure Config where
  base_spread_pct : ℚ
  order_levels : ℕ
  order_amount : ℚ
  inventory_target_pct : ℚ
  enable_dynamic_spreads : Bool
  enable_inventory_skew : Bool
  min_spread_pct : ℚ
  max_spread_pct : ℚ
  volatility_adjustment_factor : ℚ
  stop_loss_threshold : ℚ
  take_profit_threshold : ℚ
  rl_volatility_factor : ℚ
  rl_spread_factor : ℚ
  rl_inventory_factor : ℚ
deriving DecidableEq

/-- The class-attribute defaults of `RLMarketMakingStrategy` (lines 28-51). -/
def defaultConfig : Config :=
  { base_spread_pct := 0.15
    order_levels := 3
    order_amount := 0.1
    inventory_target_pct := 50
    enable_dynamic_spreads := true
    enable_inventory_skew := true
    min_spread_pct := 0.05
    max_spread_pct := 2
    volatility_adjustment_factor := 50
    stop_loss_threshold := 0.006
    take_profit_threshold := 0.005
    rl_volatility_factor := 1
    rl_spread_factor := 1
    rl_inventory_factor := 1 }

/-- The open position as backtesting.py exposes it: `size` is the signed
quantity (`is_long` is `size > 0`), truthiness of `self.position` is
`size ≠ 0`.  A flat book is `size = 0`. -/
structure Position where
  size : ℚ
  entry_price : ℚ
deriving DecidableEq

/-- Lines 88-99: the volatility-adjusted spread before the `rl_spread_factor`
multiplication.  When dynamic spreads are enabled the raw value
`base_spread_pct * (1 + volatility_adjustment_factor * volatility *
rl_volatility_factor)` is clamped by `max(min_spread_pct, min(raw,
max_spread_pct))`; when they are disabled the base spread is used with no
clamping (source line 99). -/
def preFactorSpread (cfg : Config) (vol : PyFloat) : ℚ :=
  if cfg.enable_dynamic_spreads then
    (pyMax (.num cfg.min_spread_pct)
      (pyMin
        (PyFloat.fmul (.num cfg.base_spread_pct)
          (PyFloat.fadd (.num 1)
            (PyFloat.fmul (PyFloat.fmul (.num cfg.volatility_adjustment_factor) vol)
              (.num cfg.rl_volatility_factor))))
        (.num cfg.max_spread_pct))).toQ
  else cfg.base_spread_pct

/-- Lines 88-102: the spread actually used for quoting, i.e.
`preFactorSpread` multiplied by `rl_spread_factor` (line 102). -/
def currentSpread (cfg : Config) (vol : PyFloat) : ℚ :=
  preFactorSpread cfg vol * cfg.rl_spread_factor

/-- Lines 104-113: the inventory ratio.  `size ≠ 0` mirrors the truthiness
guard `if self.position and self.position.size != 0`.  When the guard is
taken, the code divides by `total_value = position_value +
available_capital` with no further check; a zero denominator (a non-finite
result in NumPy) is modelled as `none`. -/
def inventoryRatioPct (size price capital : ℚ) : Option ℚ :=
  if size ≠ 0 then
    if size * price + capital = 0 then none
    else some (size * price / (size * price + capital) * 100)
  else some 0

/-- Lines 121-134: the inventory skew pair `(bid_skew, ask_skew)` given the
inventory ratio, the target and `rl_inventory_factor`.  Note the source's
`else` branch covers `deviation ≤ 0`. -/
def skewPair (ratioPct targetPct f : ℚ) : ℚ × ℚ :=
  if ratioPct - targetPct > 0 then
    (1 + |ratioPct - targetPct| / 50 * f * 0.5, 1 - |ratioPct - targetPct| / 50 * f * 0.5)
  else
    (1 - |ratioPct - targetPct| / 50 * f * 0.5, 1 + |ratioPct - targetPct| / 50 * f * 0.5)

/-- Lines 115-134: skews are `(1, 1)` unless `enable_inventory_skew`. -/
def skews (cfg : Config) (ratioPct : ℚ) : ℚ × ℚ :=
  if cfg.enable_inventory_skew then
    skewPair ratioPct cfg.inventory_target_pct cfg.rl_inventory_factor
  else (1, 1)

/-- Lines 159-163: the per-level size adjustment
`max(0.5, min(1 + (target - ratioPct)/100 * rl_inventory_factor, 1.5))`. -/
def sizeAdjustment (cfg : Config) (ratioPct : ℚ) : ℚ :=
  max 0.5 (min (1 + (cfg.inventory_target_pct - ratioPct) / 100 * cfg.rl_inventory_factor) 1.5)

/-- Line 146: `level_factor = 1.0 + (level - 1) * 0.5` for `level ≥ 1`. -/
def levelFactor (level : ℕ) : ℚ := 1 + ((level : ℚ) - 1) * 0.5

/-- Lines 149-169, bid side, one level: price `price * (1 - bid_spread *
level_factor)` and size `order_amount * (1/level)`, multiplied by the size
adjustment when inventory skew is enabled. -/
def bidLevel (cfg : Config) (price bidSpread ratioPct : ℚ) (level : ℕ) : ℚ × ℚ :=
  (price * (1 - bidSpread * levelFactor level),
   if cfg.enable_inventory_skew then
     cfg.order_amount * (1 / (level : ℚ)) * sizeAdjustment cfg ratioPct
   else cfg.order_amount * (1 / (level : ℚ)))

/-- Lines 150-170, ask side, one level: price `price * (1 + ask_spread *
level_factor)` and size scaled by `2 - size_adjustment`. -/
def askLevel (cfg : Config) (price askSpread ratioPct : ℚ) (level : ℕ) : ℚ × ℚ :=
  (price * (1 + askSpread * levelFactor level),
   if cfg.enable_inventory_skew then
     cfg.order_amount * (1 / (level : ℚ)) * (2 - sizeAdjustment cfg ratioPct)
   else cfg.order_amount * (1 / (level : ℚ)))

/-- Lines 136-170: the full order ladder for one bar.  Levels run over
`1 .. order_levels`; the bid (ask) spread is `spread * bid_skew`
(`spread * ask_skew`). -/
def buildLevels (cfg : Config) (price spread ratioPct : ℚ) :
    List (ℚ × ℚ) × List (ℚ × ℚ) :=
  ((List.range cfg.order_levels).map
     (fun k => bidLevel cfg price (spread * (skews cfg ratioPct).1) ratioPct (k + 1)),
   (List.range cfg.order_levels).map
     (fun k => askLevel cfg price (spread * (skews cfg ratioPct).2) ratioPct (k + 1)))

/-- Lines 172-198: the stop-loss / take-profit check.  Runs only when a
position is open; a long closes when the price leaves
`[entry*(1-stop_loss_threshold), entry*(1+take_profit_threshold)]`, a
short symmetrically. -/
def riskClose (cfg : Config) (pos : Position) (price : ℚ) : Bool :=
  if pos.size ≠ 0 then
    if pos.size > 0 then
      if price < pos.entry_price * (1 - cfg.stop_loss_threshold) then true
      else if price > pos.entry_price * (1 + cfg.take_profit_threshold) then true
      else false
    else
      if price > pos.entry_price * (1 + cfg.stop_loss_threshold) then true
      else if price < pos.entry_price * (1 - cfg.take_profit_threshold) then true
      else false
  else false

/-- The observable effect of `_execute_orders` (lines 203-236): whether the
reversal check closed the position, and the sizes of the submitted buy and
sell orders. -/
structure ExecResult where
  reversal : Bool
  buys : List ℚ
  sells : List ℚ
deriving DecidableEq

/-- Lines 203-236: `_execute_orders`.  `posSize` is `self.inventory` as set
by the ratio block (the position size, or 0 when flat).  A bid executes
when its price is ≥ the current price, an ask when its price is ≤ it; the
reversal close fires when such a crossing order is against the current
inventory sign. -/
def executeOrders (posSize price : ℚ) (bids asks : List (ℚ × ℚ)) : ExecResult :=
  { reversal :=
      if posSize ≠ 0 then
        (bids.any (fun l => decide (l.1 ≥ price)) && decide (posSize < 0)) ||
        (asks.any (fun l => decide (l.1 ≤ price)) && decide (posSize > 0))
      else false
    buys := (bids.filter (fun l => decide (l.1 ≥ price))).map (fun l => l.2)
    sells := (asks.filter (fun l => decide (l.1 ≤ price))).map (fun l => l.2) }

/-- Everything one call of `RLMarketMakingStrategy.next` computes and does:
the spread, the inventory ratio, the skews, the two ladders, whether the
position was closed (by the risk check or by the reversal check), and the
submitted order sizes. -/
structure StepResult where
  spreadOut : ℚ
  ratioOut : ℚ
  bidSkewOut : ℚ
  askSkewOut : ℚ
  bidLevelsOut : List (ℚ × ℚ)
  askLevelsOut : List (ℚ × ℚ)
  closedByRisk : Bool
  closedByReversal : Bool
  buys : List ℚ
  sells : List ℚ
deriving DecidableEq

/-- Lines 84-236: one full call of `RLMarketMakingStrategy.next` (including
`_execute_orders`).  `atr` is the latest ATR value (NaN during warm-up),
`price` the latest close, `capital` the strategy's `available_capital`,
`pos` the open position.  Returns `none` when the inventory-ratio division
has a zero denominator (non-finite value in the source).  When the risk
check closes the position the method returns early, so no orders are
submitted on that bar. -/
def next (cfg : Config) (atr : PyFloat) (price capital : ℚ) (pos : Position) :
    Option StepResult :=
  let spread := currentSpread cfg (atr.fdiv price)
  match inventoryRatioPct pos.size price capital with
  | none => none
  | some ratioPct =>
    let sk := skews cfg ratioPct
    let lv := buildLevels cfg price spread ratioPct
    if riskClose cfg pos price then
      some { spreadOut := spread, ratioOut := ratioPct, bidSkewOut := sk.1,
             askSkewOut := sk.2, bidLevelsOut := lv.1, askLevelsOut := lv.2,
             closedByRisk := true, closedByReversal := false, buys := [], sells := [] }
    else
      let er := executeOrders (if pos.size ≠ 0 then pos.size else 0) price lv.1 lv.2
      some { spreadOut := spread, ratioOut := ratioPct, bidSkewOut := sk.1,
             askSkewOut := sk.2, bidLevelsOut := lv.1, askLevelsOut := lv.2,
             closedByRisk := false, closedByReversal := er.reversal,
             buys := er.buys, sells := er.sells }

/-- `AdaptiveRLMarketMakingStrategy`: memory capacity (line 298). -/
def memoryMaxSize : ℕ := 1000

/-- Lines 414-422: `_add_to_memory` — append, then `pop(0)` when the length
exceeds the capacity. -/
def addToMemory {α : Type} (mem : List α) (e : α) : List α :=
  if (mem ++ [e]).length > memoryMaxSize then (mem ++ [e]).drop 1 else mem ++ [e]

/-- Lines 358-360: the clamp applied to each tunable factor,
`max(0.5, min(1.5, v))`. -/
def clampFactor (v : ℚ) : ℚ := max 0.5 (min 1.5 v)

/-- The three RL-tunable factors of the adaptive variant. -/
structure Tunables where
  volFactor : ℚ
  spreadFactor : ℚ
  invFactor : ℚ
deriving DecidableEq

/-- Lines 353-360: `_explore_action` — multiply each factor by `1 + draw`
(the draw is uniform in `[-0.1, 0.1]`) and clamp to `[0.5, 1.5]`. -/
def exploreAction (t : Tunables) (d1 d2 d3 : ℚ) : Tunables :=
  { volFactor := clampFactor (t.volFactor * (1 + d1))
    spreadFactor := clampFactor (t.spreadFactor * (1 + d2))
    invFactor := clampFactor (t.invFactor * (1 + d3)) }

/-- Lines 316-321: per bar, the factors are perturbed by `_explore_action`
with probability `exploration_rate` and are otherwise left unchanged; no
other code assigns to them. -/
def adaptiveFactorUpdate (explore : Bool) (t : Tunables) (d1 d2 d3 : ℚ) : Tunables :=
  if explore then exploreAction t d1 d2 d3 else t

/-! ## Helper lemmas -/

@[simp]
theorem PyFloat.flt_num_num (a b : ℚ) :
    PyFloat.flt (.num a) (.num b) = decide (a < b) := rfl

@[simp]
theorem PyFloat.flt_nan_right (a : PyFloat) : PyFloat.flt a .nan = false := by
  cases a <;> rfl

@[simp]
theorem PyFloat.flt_nan_left (b : PyFloat) : PyFloat.flt .nan b = false := by
  cases b <;> rfl

@[simp]
theorem PyFloat.toQ_num (q : ℚ) : (PyFloat.num q).toQ = q := rfl

@[simp]
theorem PyFloat.toQ_nan : (PyFloat.nan).toQ = 0 := rfl

/-- The Python clamp `max(m, min(x, M))` lands in `[m, M]` whenever `m ≤ M`,
for every float `x`, NaN included (NaN comparisons are false, so the clamp
collapses to `m`). -/
theorem pyClamp_mem (m M : ℚ) (x : PyFloat) (hmm : m ≤ M) :
    m ≤ (pyMax (.num m) (pyMin x (.num M))).toQ ∧
    (pyMax (.num m) (pyMin x (.num M))).toQ ≤ M := by
  cases x with
  | nan => simp [pyMin, pyMax, hmm]
  | num v =>
    simp only [pyMin, pyMax]
    split_ifs <;>
      simp only [PyFloat.flt_num_num, decide_eq_true_eq, PyFloat.toQ_num] at * <;>
      constructor <;> linarith

/-! ## Claims -/

/-- C3: the Inventory Skew Engine: with `deviation = ratioPct - targetPct`
and `skew_factor = |deviation| / 50 * f`, a positive deviation gives
`ask_skew = 1 - 0.5*skew_factor`, `bid_skew = 1 + 0.5*skew_factor`, a
negative deviation the mirror image; at `ratioPct = 80`, `target = 50`,
`f = 1` the outputs are exactly `skew_factor = 0.6`, `ask_skew = 0.7`,
`bid_skew = 1.3`.  (`skewPair` returns `(bid_skew, ask_skew)`.) -/
theorem skew_engine_formulas (ratioPct targetPct f : ℚ) :
    (ratioPct - targetPct > 0 →
      skewPair ratioPct targetPct f =
        (1 + |ratioPct - targetPct| / 50 * f * 0.5,
         1 - |ratioPct - targetPct| / 50 * f * 0.5)) ∧
    (ratioPct - targetPct < 0 →
      skewPair ratioPct targetPct f =
        (1 - |ratioPct - targetPct| / 50 * f * 0.5,
         1 + |ratioPct - targetPct| / 50 * f * 0.5)) ∧
    skewPair 80 50 1 = (1.3, 0.7) ∧ |(80 : ℚ) - 50| / 50 * 1 = 0.6 := by
  refine ⟨fun h => ?_, fun h => ?_, ?_, ?_⟩
  · rw [skewPair, if_pos h]
  · rw [skewPair, if_neg (by linarith)]
  · norm_num [skewPair, abs_of_pos]
  · norm_num

/-- Witness for C3 at the spec's example scenario. -/
theorem skew_engine_formulas_witness :
    (80 : ℚ) - 50 > 0 ∧
    skewPair 80 50 1 =
      (1 + |(80 : ℚ) - 50| / 50 * 1 * 0.5, 1 - |(80 : ℚ) - 50| / 50 * 1 * 0.5) :=
  ⟨by norm_num, (skew_engine_formulas 80 50 1).1 (by norm_num)⟩

/-- C7: each tunable factor starting in `[0.5, 1.5]`, with any perturbation
draw in `[-0.1, 0.1]`, is again in `[0.5, 1.5]` after one step of the
adaptive factor update — on the explore branch (multiply by `1 + draw`,
then clamp) and on the exploit branch (unchanged), the only two code paths
that touch the factors. -/
theorem tunable_factors_bounded (explore : Bool) (t : Tunables) (d1 d2 d3 : ℚ)
    (h1 : 0.5 ≤ t.volFactor ∧ t.volFactor ≤ 1.5)
    (h2 : 0.5 ≤ t.spreadFactor ∧ t.spreadFactor ≤ 1.5)
    (h3 : 0.5 ≤ t.invFactor ∧ t.invFactor ≤ 1.5)
    (hd1 : -0.1 ≤ d1 ∧ d1 ≤ 0.1) (hd2 : -0.1 ≤ d2 ∧ d2 ≤ 0.1)
    (hd3 : -0.1 ≤ d3 ∧ d3 ≤ 0.1) :
    (0.5 ≤ (adaptiveFactorUpdate explore t d1 d2 d3).volFactor ∧
      (adaptiveFactorUpdate explore t d1 d2 d3).volFactor ≤ 1.5) ∧
    (0.5 ≤ (adaptiveFactorUpdate explore t d1 d2 d3).spreadFactor ∧
      (adaptiveFactorUpdate explore t d1 d2 d3).spreadFactor ≤ 1.5) ∧
    (0.5 ≤ (adaptiveFactorUpdate explore t d1 d2 d3).invFactor ∧
      (adaptiveFactorUpdate explore t d1 d2 d3).invFactor ≤ 1.5) := by
  have hc : ∀ v : ℚ, 0.5 ≤ clampFactor v ∧ clampFactor v ≤ 1.5 := by
    intro v
    refine ⟨le_max_left _ _, max_le (by norm_num) (min_le_left _ _)⟩
  cases explore with
  | false => simpa [adaptiveFactorUpdate] using ⟨h1, h2, h3⟩
  | true => simpa [adaptiveFactorUpdate, exploreAction] using ⟨hc _, hc _, hc _⟩

/-- Witness for C7 on the explore branch at concrete factors and draws. -/
theorem tunable_factors_bounded_witness :
    (0.5 ≤ (adaptiveFactorUpdate true ⟨1, 1, 1⟩ 0.1 (-0.1) 0).volFactor ∧
      (adaptiveFactorUpdate true ⟨1, 1, 1⟩ 0.1 (-0.1) 0).volFactor ≤ 1.5) ∧
    (0.5 ≤ (adaptiveFactorUpdate true ⟨1, 1, 1⟩ 0.1 (-0.1) 0).spreadFactor ∧
      (adaptiveFactorUpdate true ⟨1, 1, 1⟩ 0.1 (-0.1) 0).spreadFactor ≤ 1.5) ∧
    (0.5 ≤ (adaptiveFactorUpdate true ⟨1, 1, 1⟩ 0.1 (-0.1) 0).invFactor ∧
      (adaptiveFactorUpdate true ⟨1, 1, 1⟩ 0.1 (-0.1) 0).invFactor ≤ 1.5) :=
  tunable_factors_bounded true ⟨1, 1, 1⟩ 0.1 (-0.1) 0
    (by norm_num) (by norm_num) (by norm_num)
    (by norm_num) (by norm_num) (by norm_num)

/-- C9 counterexample: at position size `-100`, price `100`, available
capital `10000`, the total value is zero, yet the code takes the division
branch (nonzero position size), so the ratio is the non-finite outcome of
a zero-denominator division (`none` in the embedding), not `0`: the guard
is on the position size, not on the total value. -/
theorem inventory_ratio_zero_total_counterexample :
    (-100 : ℚ) * 100 + 10000 = 0 ∧
    inventoryRatioPct (-100) 100 10000 = none := by
  norm_num [inventoryRatioPct]

/-- C9 amended: the inventory-ratio computation yields `0` exactly whenever
the position size is zero (the source's guard); with a nonzero position it
always performs the division `position_value / total_value * 100`, with no
guard on a zero total value (where the division has a zero denominator,
`none` in the embedding). -/
theorem inventory_ratio_amended (size price capital : ℚ) :
    (size = 0 → inventoryRatioPct size price capital = some 0) ∧
    (size ≠ 0 → size * price + capital = 0 →
      inventoryRatioPct size price capital = none) ∧
    (size ≠ 0 → size * price + capital ≠ 0 →
      inventoryRatioPct size price capital =
        some (size * price / (size * price + capital) * 100)) := by
  refine ⟨fun h => ?_, fun h h0 => ?_, fun h h0 => ?_⟩
  · simp [inventoryRatioPct, h]
  · simp [inventoryRatioPct, h, h0]
  · simp [inventoryRatioPct, h, h0]

/-- Witness for C9 amended: a flat book has ratio 0. -/
theorem inventory_ratio_amended_witness :
    inventoryRatioPct 0 100 10000 = some 0 :=
  (inventory_ratio_amended 0 100 10000).1 rfl

/-- A configuration with dynamic spreads disabled and a base spread outside
`[min_spread_pct, max_spread_pct]` (all other parameters the source
defaults). -/
def configNoClamp : Config :=
  { defaultConfig with enable_dynamic_spreads := false, base_spread_pct := 3 }

/-- C2 counterexample: with dynamic spreads disabled the source (line 99)
assigns `base_spread_pct` without clamping, so with `base_spread_pct = 3`
and `max_spread_pct = 2` the pre-factor spread is `3`, outside
`[min_spread_pct, max_spread_pct]` — the claim's "still clamped per step 3
when disabled" fails. -/
theorem spread_clamped_counterexample :
    configNoClamp.enable_dynamic_spreads = false ∧
    preFactorSpread configNoClamp (.num 0) = 3 ∧
    ¬(preFactorSpread configNoClamp (.num 0) ≤ configNoClamp.max_spread_pct) := by
  refine ⟨rfl, ?_, ?_⟩ <;> norm_num [preFactorSpread, configNoClamp, defaultConfig]

/-- C2 amended: when dynamic spreads are enabled and the configured band is
well formed (`min_spread_pct ≤ max_spread_pct`, the caller contract of
§7), the spread before the `rl_spread_factor` multiplication lies in
`[min_spread_pct, max_spread_pct]` for every volatility input, NaN
included; when dynamic spreads are disabled the code skips the clamp and
uses `base_spread_pct` as is. -/
theorem spread_clamped_amended (cfg : Config) (vol : PyFloat)
    (hd : cfg.enable_dynamic_spreads = true)
    (hmm : cfg.min_spread_pct ≤ cfg.max_spread_pct) :
    cfg.min_spread_pct ≤ preFactorSpread cfg vol ∧
      preFactorSpread cfg vol ≤ cfg.max_spread_pct := by
  have h := pyClamp_mem cfg.min_spread_pct cfg.max_spread_pct
    (PyFloat.fmul (.num cfg.base_spread_pct)
      (PyFloat.fadd (.num 1)
        (PyFloat.fmul (PyFloat.fmul (.num cfg.volatility_adjustment_factor) vol)
          (.num cfg.rl_volatility_factor)))) hmm
  simpa [preFactorSpread, hd] using h

/-- Witness for C2 amended at the default configuration and zero volatility. -/
theorem spread_clamped_amended_witness :
    defaultConfig.min_spread_pct ≤ preFactorSpread defaultConfig (.num 0) ∧
      preFactorSpread defaultConfig (.num 0) ≤ defaultConfig.max_spread_pct :=
  spread_clamped_amended defaultConfig (.num 0) rfl (by norm_num [defaultConfig])

/-- Characterization of `_add_to_memory` folded over a whole insertion
sequence: starting from a buffer within capacity, the result is the last
`memoryMaxSize` elements (in order) of the buffer followed by the inserts. -/
theorem foldl_addToMemory_drop {α : Type} (es : List α) :
    ∀ mem : List α, mem.length ≤ memoryMaxSize →
      es.foldl addToMemory mem =
        (mem ++ es).drop (mem.length + es.length - memoryMaxSize) := by
  induction es with
  | nil =>
    intro mem h
    rw [List.foldl_nil, List.append_nil, List.length_nil, Nat.add_zero,
      Nat.sub_eq_zero_of_le h, List.drop_zero]
  | cons e es ih =>
    intro mem h
    rw [List.foldl_cons]
    by_cases hl : mem.length + 1 ≤ memoryMaxSize
    · have hm : addToMemory mem e = mem ++ [e] := by
        simp only [addToMemory, List.length_append, List.length_singleton]
        rw [if_neg (by omega)]
      rw [hm, ih _ (by simp only [List.length_append, List.length_singleton]; omega)]
      have h2 : (mem ++ [e]) ++ es = mem ++ e :: es := by simp
      have h3 : (mem ++ [e]).length + es.length - memoryMaxSize =
          mem.length + (e :: es).length - memoryMaxSize := by
        simp only [List.length_append, List.length_singleton, List.length_cons,
          List.length_nil]
        omega
      rw [h2, h3]
    · have hmax : 1 ≤ memoryMaxSize := by norm_num [memoryMaxSize]
      have hm : addToMemory mem e = (mem ++ [e]).drop 1 := by
        simp only [addToMemory, List.length_append, List.length_singleton]
        rw [if_pos (by omega)]
      have hm2 : (mem ++ [e]).drop 1 = mem.drop 1 ++ [e] :=
        List.drop_append_of_le_length (by omega)
      have hlen1 : ((mem ++ [e]).drop 1).length ≤ memoryMaxSize := by
        simp only [List.length_drop, List.length_append, List.length_singleton]
        omega
      rw [hm, ih _ hlen1, hm2]
      have hidx : (mem.drop 1 ++ [e]).length + es.length - memoryMaxSize =
          es.length := by
        simp only [List.length_append, List.length_singleton, List.length_drop,
          List.length_cons, List.length_nil]
        omega
      have h4 : (mem.drop 1 ++ [e]) ++ es = mem.drop 1 ++ (e :: es) := by simp
      have h5 : mem.length + (e :: es).length - memoryMaxSize = es.length + 1 := by
        simp only [List.length_cons]; omega
      rw [hidx, h4, h5]
      cases mem with
      | nil => simp [memoryMaxSize] at hl
      | cons a t => simp [List.drop_succ_cons]

/-- C6: the experience memory is a capacity-1000 FIFO: after folding
`_add_to_memory` over any insertion sequence starting from an empty
memory, at most 1000 entries remain, and the content is exactly the
insertion sequence with its oldest `length - 1000` entries dropped (so
inserting 1001 entries leaves the last 1000 in insertion order, the
first-inserted entry evicted — the concrete 1001-entry check is the last
conjunct). -/
theorem experience_memory_fifo (es : List ℕ) :
    (es.foldl addToMemory []).length ≤ memoryMaxSize ∧
    es.foldl addToMemory [] = es.drop (es.length - memoryMaxSize) ∧
    (List.range (memoryMaxSize + 1)).foldl addToMemory [] =
      (List.range (memoryMaxSize + 1)).drop 1 := by
  have key : ∀ l : List ℕ, l.foldl addToMemory [] = l.drop (l.length - memoryMaxSize) := by
    intro l
    have h := foldl_addToMemory_drop l [] (by simp)
    simpa using h
  refine ⟨?_, key es, ?_⟩
  · rw [key es, List.length_drop]
    omega
  · rw [key (List.range (memoryMaxSize + 1)), List.length_range]
    have h1 : memoryMaxSize + 1 - memoryMaxSize = 1 := by omega
    rw [h1]

/-- The C4 scenario configuration: the source defaults with dynamic spread
adjustment disabled (`base_spread_pct = 0.15`, `order_levels = 3`,
`order_amount = 0.1`, all tunable factors 1, target 50). -/
def configC4 : Config := { defaultConfig with enable_dynamic_spreads := false }

set_option maxRecDepth 4000 in
/-- C4: under the scenario configuration and neutral inventory
(`ratioPct = 50` = target), the ladder for any close price `p` and any
volatility input is exactly the three bid levels
`(p*0.85, 0.1), (p*0.775, 0.05), (p*0.70, 0.1/3)` and the symmetric ask
levels `(p*1.15, 0.1), (p*1.225, 0.05), (p*1.30, 0.1/3)`. -/
theorem ladder_example (p : ℚ) (vol : PyFloat) :
    buildLevels configC4 p (currentSpread configC4 vol) 50 =
      ([(p * 0.85, 0.1), (p * 0.775, 0.05), (p * 0.70, 0.1 / 3)],
       [(p * 1.15, 0.1), (p * 1.225, 0.05), (p * 1.30, 0.1 / 3)]) := by
  have hr : List.range 3 = [0, 1, 2] := rfl
  norm_num [buildLevels, configC4, defaultConfig, currentSpread, preFactorSpread,
    hr, skews, skewPair, sizeAdjustment, bidLevel, askLevel, levelFactor]

/-- `getD` of a mapped range at an in-range index. -/
theorem getD_map_range {β : Type} (n i : ℕ) (f : ℕ → β) (d : β) (h : i < n) :
    ((List.range n).map f).getD i d = f i := by
  rw [List.getD_eq_getElem?_getD, List.getElem?_map, List.getElem?_range h]
  rfl

theorem levelFactor_nonneg (k : ℕ) : 0 ≤ levelFactor (k + 1) := by
  simp only [levelFactor]
  push_cast
  have : (0 : ℚ) ≤ (k : ℚ) := Nat.cast_nonneg k
  linarith

theorem levelFactor_le_succ (k : ℕ) : levelFactor (k + 1) ≤ levelFactor (k + 2) := by
  simp only [levelFactor]
  push_cast
  linarith

theorem abs_bid_dist (price b L : ℚ) (hL : 0 ≤ L) :
    |price * (1 - b * L) - price| = |price * b| * L := by
  have h1 : price * (1 - b * L) - price = -(price * b * L) := by ring
  rw [h1, abs_neg, abs_mul, abs_of_nonneg hL]

theorem abs_ask_dist (price a L : ℚ) (hL : 0 ≤ L) :
    |price * (1 + a * L) - price| = |price * a| * L := by
  have h1 : price * (1 + a * L) - price = price * a * L := by ring
  rw [h1, abs_mul, abs_of_nonneg hL]

/-- C5: on both sides of any generated ladder, the absolute distance of the
quoted price from the reference close price is monotone in the level
index: level `i+1`'s distance is at least level `i`'s, for every adjacent
in-range pair, because `level_factor = 1 + (level-1)*0.5` increases. -/
theorem ladder_monotone (cfg : Config) (price spread ratioPct : ℚ) (i : ℕ)
    (hp : 0 < price) (hi : i + 1 < cfg.order_levels) :
    |((buildLevels cfg price spread ratioPct).1.getD i (0, 0)).1 - price| ≤
      |((buildLevels cfg price spread ratioPct).1.getD (i + 1) (0, 0)).1 - price| ∧
    |((buildLevels cfg price spread ratioPct).2.getD i (0, 0)).1 - price| ≤
      |((buildLevels cfg price spread ratioPct).2.getD (i + 1) (0, 0)).1 - price| := by
  have hi0 : i < cfg.order_levels := by omega
  simp only [buildLevels]
  rw [getD_map_range _ _ _ _ hi0, getD_map_range _ _ _ _ hi,
    getD_map_range _ _ _ _ hi0, getD_map_range _ _ _ _ hi]
  simp only [bidLevel, askLevel]
  constructor
  · rw [abs_bid_dist _ _ _ (levelFactor_nonneg i),
      abs_bid_dist _ _ _ (levelFactor_nonneg (i + 1))]
    exact mul_le_mul_of_nonneg_left (levelFactor_le_succ i) (abs_nonneg _)
  · rw [abs_ask_dist _ _ _ (levelFactor_nonneg i),
      abs_ask_dist _ _ _ (levelFactor_nonneg (i + 1))]
    exact mul_le_mul_of_nonneg_left (levelFactor_le_succ i) (abs_nonneg _)

/-- Witness for C5 at the default configuration (3 levels), adjacent pair
(1, 2). -/
theorem ladder_monotone_witness :
    |((buildLevels defaultConfig 100 1 0).1.getD 0 (0, 0)).1 - 100| ≤
      |((buildLevels defaultConfig 100 1 0).1.getD 1 (0, 0)).1 - 100| ∧
    |((buildLevels defaultConfig 100 1 0).2.getD 0 (0, 0)).1 - 100| ≤
      |((buildLevels defaultConfig 100 1 0).2.getD 1 (0, 0)).1 - 100| :=
  ladder_monotone defaultConfig 100 1 0 0 (by norm_num)
    (by norm_num [defaultConfig])

theorem one_le_levelFactor (k : ℕ) : 1 ≤ levelFactor (k + 1) := by
  simp only [levelFactor]
  push_cast
  have h0 : (0 : ℚ) ≤ (k : ℚ) := Nat.cast_nonneg k
  linarith

/-- With a positive bid spread every bid level is quoted strictly below the
current price (so it never crosses). -/
theorem bid_prices_below (cfg : Config) (price spread ratioPct : ℚ)
    (hp : 0 < price) (hb : 0 < spread * (skews cfg ratioPct).1) :
    ∀ l ∈ (buildLevels cfg price spread ratioPct).1, l.1 < price := by
  intro l hl
  simp only [buildLevels, List.mem_map, List.mem_range] at hl
  obtain ⟨k, hk, rfl⟩ := hl
  simp only [bidLevel]
  have hL : (0 : ℚ) < levelFactor (k + 1) :=
    lt_of_lt_of_le one_pos (one_le_levelFactor k)
  have h1 : 0 < price * (spread * (skews cfg ratioPct).1 * levelFactor (k + 1)) :=
    mul_pos hp (mul_pos hb hL)
  nlinarith [h1]

/-- With a positive ask spread every ask level is quoted strictly above the
current price. -/
theorem ask_prices_above (cfg : Config) (price spread ratioPct : ℚ)
    (hp : 0 < price) (ha : 0 < spread * (skews cfg ratioPct).2) :
    ∀ l ∈ (buildLevels cfg price spread ratioPct).2, price < l.1 := by
  intro l hl
  simp only [buildLevels, List.mem_map, List.mem_range] at hl
  obtain ⟨k, hk, rfl⟩ := hl
  simp only [askLevel]
  have hL : (0 : ℚ) < levelFactor (k + 1) :=
    lt_of_lt_of_le one_pos (one_le_levelFactor k)
  have h1 : 0 < price * (spread * (skews cfg ratioPct).2 * levelFactor (k + 1)) :=
    mul_pos hp (mul_pos ha hL)
  nlinarith [h1]

/-- When no bid reaches up to the price and no ask reaches down to it,
`_execute_orders` does nothing: no reversal close, no buys, no sells. -/
theorem executeOrders_no_cross (posSize price : ℚ) (bids asks : List (ℚ × ℚ))
    (hb : ∀ l ∈ bids, l.1 < price) (ha : ∀ l ∈ asks, price < l.1) :
    (executeOrders posSize price bids asks).reversal = false ∧
    (executeOrders posSize price bids asks).buys = [] ∧
    (executeOrders posSize price bids asks).sells = [] := by
  have hanyb : bids.any (fun l => decide (l.1 ≥ price)) = false := by
    rw [List.any_eq_false]
    intro x hx
    simp only [decide_eq_true_eq]
    exact not_le.mpr (hb x hx)
  have hanya : asks.any (fun l => decide (l.1 ≤ price)) = false := by
    rw [List.any_eq_false]
    intro x hx
    simp only [decide_eq_true_eq]
    exact not_le.mpr (ha x hx)
  refine ⟨?_, ?_, ?_⟩
  · simp only [executeOrders, hanyb, hanya, Bool.false_and, Bool.or_self,
      Bool.false_or, Bool.and_self]
    split_ifs <;> simp
  · simp only [executeOrders]
    rw [List.filter_eq_nil_iff.mpr]
    · rfl
    · intro x hx
      simp only [decide_eq_true_eq]
      exact not_le.mpr (hb x hx)
  · simp only [executeOrders]
    rw [List.filter_eq_nil_iff.mpr]
    · rfl
    · intro x hx
      simp only [decide_eq_true_eq]
      exact not_le.mpr (ha x hx)

/-- The stop-loss / take-profit condition, spelled out, is equivalent to the
boolean `riskClose` whenever a position is open. -/
theorem riskClose_iff (cfg : Config) (pos : Position) (price : ℚ)
    (hsz : pos.size ≠ 0) :
    riskClose cfg pos price = true ↔
      (if 0 < pos.size then
        price < pos.entry_price * (1 - cfg.stop_loss_threshold) ∨
          price > pos.entry_price * (1 + cfg.take_profit_threshold)
      else
        price > pos.entry_price * (1 + cfg.stop_loss_threshold) ∨
          price < pos.entry_price * (1 - cfg.take_profit_threshold)) := by
  rw [riskClose, if_pos hsz]
  by_cases hL : pos.size > 0
  · rw [if_pos hL, if_pos hL]
    split_ifs with h1 h2 <;> simp_all
  · rw [if_neg hL, if_neg hL]
    split_ifs with h1 h2 <;> simp_all

/-- C1 counterexample: a short position (`size = -90`, entry 100) at price
100, which is strictly between `entry*(1 - take_profit_threshold)` and
`entry*(1 + stop_loss_threshold)` for the default thresholds, is
nevertheless closed on that bar: the inventory ratio is `-900`, so
`bid_skew = -8.5`, the bid prices land above the current price, and the
reversal check inside `_execute_orders` closes the position — contradicting
"never closed strictly inside the band by any code path of the step". -/
theorem risk_governor_counterexample :
    (100 : ℚ) * (1 - defaultConfig.take_profit_threshold) < 100 ∧
    (100 : ℚ) < 100 * (1 + defaultConfig.stop_loss_threshold) ∧
    (next defaultConfig (.num 1) 100 10000 { size := -90, entry_price := 100 }).map
        (fun r => r.closedByRisk || r.closedByReversal) = some true := by
  refine ⟨by norm_num [defaultConfig], by norm_num [defaultConfig], ?_⟩
  have hr : inventoryRatioPct (-90 : ℚ) 100 10000 = some (-900) := by
    norm_num [inventoryRatioPct]
  have hRf : riskClose defaultConfig { size := -90, entry_price := 100 } 100 = false := by
    norm_num [riskClose, defaultConfig]
  have hrange : List.range 3 = [0, 1, 2] := rfl
  simp only [next, hr, hRf]
  norm_num [executeOrders, buildLevels, bidLevel, askLevel, skews, skewPair,
    sizeAdjustment, currentSpread, preFactorSpread, pyMin, pyMax, PyFloat.fdiv,
    PyFloat.fmul, PyFloat.fadd, levelFactor, defaultConfig, hrange]

/-- C1 amended: with a position open, a positive computed spread and both
skews positive at the bar's inventory ratio (in particular whenever
`|inventory_ratio − target| × rl_inventory_factor < 100`, which always
holds for a long position with positive available capital), the per-bar
step closes the position iff the price is outside the stop-loss /
take-profit band: `price < entry×(1−s) ∨ price > entry×(1+t)` for a long,
mirrored for a short.  Without the skew-positivity condition the
order-execution reversal check can additionally close a position whose
price is strictly inside the band (see the counterexample). -/
theorem risk_governor_amended (cfg : Config) (atr : PyFloat) (price capital : ℚ)
    (pos : Position) (ratioPct : ℚ)
    (hs : 0 < cfg.stop_loss_threshold) (ht : 0 < cfg.take_profit_threshold)
    (hp : 0 < price) (hsz : pos.size ≠ 0)
    (hr : inventoryRatioPct pos.size price capital = some ratioPct)
    (hbid : 0 < currentSpread cfg (atr.fdiv price) * (skews cfg ratioPct).1)
    (hask : 0 < currentSpread cfg (atr.fdiv price) * (skews cfg ratioPct).2) :
    ((next cfg atr price capital pos).map
        (fun r => r.closedByRisk || r.closedByReversal) = some true) ↔
      (if 0 < pos.size then
        price < pos.entry_price * (1 - cfg.stop_loss_threshold) ∨
          price > pos.entry_price * (1 + cfg.take_profit_threshold)
      else
        price > pos.entry_price * (1 + cfg.stop_loss_threshold) ∨
          price < pos.entry_price * (1 - cfg.take_profit_threshold)) := by
  have hrisk := riskClose_iff cfg pos price hsz
  by_cases hR : riskClose cfg pos price = true
  · have hnext : (next cfg atr price capital pos).map
        (fun r => r.closedByRisk || r.closedByReversal) = some true := by
      simp [next, hr, hR]
    rw [hnext]
    simp only [eq_self_iff_true, true_iff]
    exact hrisk.mp hR
  · have hRf : riskClose cfg pos price = false := by
      simpa using hR
    have hbids := bid_prices_below cfg price (currentSpread cfg (atr.fdiv price))
      ratioPct hp hbid
    have hasks := ask_prices_above cfg price (currentSpread cfg (atr.fdiv price))
      ratioPct hp hask
    have hexec := executeOrders_no_cross pos.size price
      (buildLevels cfg price (currentSpread cfg (atr.fdiv price)) ratioPct).1
      (buildLevels cfg price (currentSpread cfg (atr.fdiv price)) ratioPct).2
      hbids hasks
    have hnext : (next cfg atr price capital pos).map
        (fun r => r.closedByRisk || r.closedByReversal) = some false := by
      simp [next, hr, hRf, hsz, hexec.1]
    rw [hnext]
    constructor
    · intro hfalse
      exact absurd hfalse (by simp)
    · intro hRHS
      exact absurd (hrisk.mpr hRHS) hR

/-- A long position of one unit entered at 100, used as the concrete
instance of the risk-governor claim. -/
def posLong : Position := { size := 1, entry_price := 100 }

/-- Witness for C1 amended: default configuration, warm-up ATR, price 100,
capital 10000, long position entered at 100 (so the inventory ratio is
100/101 and both skews are positive); the price is inside the band, and
indeed the step does not close. -/
theorem risk_governor_amended_witness :
    ((next defaultConfig PyFloat.nan 100 10000 posLong).map
        (fun r => r.closedByRisk || r.closedByReversal) = some true) ↔
      (if 0 < posLong.size then
        (100 : ℚ) < posLong.entry_price * (1 - defaultConfig.stop_loss_threshold) ∨
          (100 : ℚ) > posLong.entry_price * (1 + defaultConfig.take_profit_threshold)
      else
        (100 : ℚ) > posLong.entry_price * (1 + defaultConfig.stop_loss_threshold) ∨
          (100 : ℚ) < posLong.entry_price * (1 - defaultConfig.take_profit_threshold)) := by
  have habs : |((100 : ℚ) / 101 - 50)| = 4950 / 101 := by
    rw [abs_of_nonpos (by norm_num)]
    norm_num
  have habs2 : |(4950 : ℚ) / 101| = 4950 / 101 := abs_of_nonneg (by norm_num)
  apply risk_governor_amended defaultConfig PyFloat.nan 100 10000 posLong (100 / 101)
  · norm_num [defaultConfig]
  · norm_num [defaultConfig]
  · norm_num
  · norm_num [posLong]
  · norm_num [inventoryRatioPct, posLong]
  · norm_num [currentSpread, preFactorSpread, defaultConfig, pyMin, pyMax,
      PyFloat.fdiv, PyFloat.fmul, PyFloat.fadd, skews, skewPair, habs, habs2]
  · norm_num [currentSpread, preFactorSpread, defaultConfig, pyMin, pyMax,
      PyFloat.fdiv, PyFloat.fmul, PyFloat.fadd, skews, skewPair, habs, habs2]

/-- C8: on a warm-up bar (ATR is NaN) with no position open, the step runs
to completion (returns a result, does not crash) and submits no buy and no
sell orders — provided the configuration quotes a positive spread on NaN
volatility and positive skews at ratio 0, as the defaults do.  (On the NaN
path the clamp collapses to `min_spread_pct` because NaN comparisons are
false.) -/
theorem warmup_skips_quoting (cfg : Config) (price capital : ℚ) (pos : Position)
    (hp : 0 < price) (hpos : pos.size = 0)
    (hsp : 0 < currentSpread cfg PyFloat.nan)
    (hbid : 0 < (skews cfg 0).1) (hask : 0 < (skews cfg 0).2) :
    (next cfg PyFloat.nan price capital pos).map
        (fun r => (r.buys, r.sells, r.closedByRisk || r.closedByReversal)) =
      some ([], [], false) := by
  have hr : inventoryRatioPct pos.size price capital = some 0 := by
    simp [inventoryRatioPct, hpos]
  have hvol : PyFloat.fdiv PyFloat.nan price = PyFloat.nan := rfl
  have hRf : riskClose cfg pos price = false := by
    simp [riskClose, hpos]
  have hbids := bid_prices_below cfg price (currentSpread cfg PyFloat.nan) 0 hp
    (mul_pos hsp hbid)
  have hasks := ask_prices_above cfg price (currentSpread cfg PyFloat.nan) 0 hp
    (mul_pos hsp hask)
  have hexec := executeOrders_no_cross 0 price
    (buildLevels cfg price (currentSpread cfg PyFloat.nan) 0).1
    (buildLevels cfg price (currentSpread cfg PyFloat.nan) 0).2 hbids hasks
  rw [hpos] at hr
  simp [next, hvol, hr, hRf, hpos, hexec.1, hexec.2.1, hexec.2.2]

/-- Witness for C8 at the default configuration, price 100, capital 10000,
flat book. -/
theorem warmup_skips_quoting_witness :
    (next defaultConfig PyFloat.nan 100 10000 { size := 0, entry_price := 0 }).map
        (fun r => (r.buys, r.sells, r.closedByRisk || r.closedByReversal)) =
      some ([], [], false) := by
  have habs : |((0 : ℚ) - 50)| = 50 := by
    rw [abs_of_nonpos (by norm_num)]
    norm_num
  apply warmup_skips_quoting
  · norm_num
  · rfl
  · norm_num [currentSpread, preFactorSpread, defaultConfig, pyMin, pyMax,
      PyFloat.fmul, PyFloat.fadd]
  · norm_num [skews, skewPair, defaultConfig, habs]
  · norm_num [skews, skewPair, defaultConfig, habs]

/-- C10: with no position open the step sets the inventory ratio to 0 (not
to the neutral target), so with `inventory_target_pct = 50` and inventory
skew enabled the deviation is `-50` and the bar is quoted asymmetrically:
`bid_skew = 1 - 0.5*rl_inventory_factor` (tighter bids) and
`ask_skew = 1 + 0.5*rl_inventory_factor` (wider asks). -/
theorem flat_inventory_asymmetric_skew (cfg : Config) (atr : PyFloat)
    (price capital : ℚ) (pos : Position)
    (hpos : pos.size = 0) (htar : cfg.inventory_target_pct = 50)
    (hen : cfg.enable_inventory_skew = true) :
    (next cfg atr price capital pos).map
        (fun r => (r.ratioOut, r.bidSkewOut, r.askSkewOut)) =
      some (0, 1 - cfg.rl_inventory_factor * 0.5,
        1 + cfg.rl_inventory_factor * 0.5) := by
  have hr : inventoryRatioPct pos.size price capital = some 0 := by
    simp [inventoryRatioPct, hpos]
  have habs : |((0 : ℚ) - 50)| = 50 := by
    rw [abs_of_nonpos (by norm_num)]
    norm_num
  have hsk : skews cfg 0 = (1 - cfg.rl_inventory_factor * 0.5,
      1 + cfg.rl_inventory_factor * 0.5) := by
    rw [show skews cfg 0 = skewPair 0 50 cfg.rl_inventory_factor from by
      simp [skews, hen, htar]]
    rw [skewPair, if_neg (by norm_num), habs]
    simp only [Prod.mk.injEq]
    constructor <;> ring
  have hRf : riskClose cfg pos price = false := by
    simp [riskClose, hpos]
  simp [next, hr, hRf, hsk]

/-- Witness for C10 at the default configuration. -/
theorem flat_inventory_asymmetric_skew_witness :
    (next defaultConfig (.num 1) 100 10000 { size := 0, entry_price := 0 }).map
        (fun r => (r.ratioOut, r.bidSkewOut, r.askSkewOut)) =
      some (0, 1 - defaultConfig.rl_inventory_factor * 0.5,
        1 + defaultConfig.rl_inventory_factor * 0.5) :=
  flat_inventory_asymmetric_skew defaultConfig (.num 1) 100 10000
    { size := 0, entry_price := 0 } rfl rfl rfl

end MarketMaking
